import Mathlib

/-!
Verification of the hse-inspector photo-analysis pipeline.

Shallow embedding of the client code in
`src/components/AnalyzePhotoScreen.tsx` (image acquisition, client-side
compression, the upload-then-analyze pipeline, hazard grouping) and of the
inspection-detail refresh hook `useInspectionData.fetchInspection`
(the enhanced screen variants in the unnamed source parts share the same
logic).  Asynchronous effects (token retrieval, the two HTTP calls) are
modelled as an explicit environment record holding the data each external
call returns; each `await` in the source is a suspension point and the
embedding records the progress flags at every such point.
-/

namespace HSE

/-! ## Data model (types from AnalyzePhotoScreen.tsx and the detail screen) -/

/-- One detected hazard (type `Hazard` in the source).  `category` ranges over
the eight fixed `HazardCategory` names (PPE, Fall, Fire, Electrical, Chemical,
Machinery, Environmental, Other); `severity` over Critical, High, Medium, Low. -/
structure Hazard where
  id : String
  description : String
  location : String
  category : String
  severity : String
  immediateSolutions : List String
  longTermSolutions : List String
  priority : Nat
deriving DecidableEq

/-- Overall assessment of a completed inspection (type `Overall`). -/
structure Overall where
  riskScore : Nat
  safetyGrade : String
  topPriorities : List String
  complianceStandards : Option (List String)
deriving DecidableEq

/-- Analysis metadata (informational only). -/
structure AnalysisMetadata where
  analysisTime : Nat
  tokensUsed : Nat
  confidence : Nat
deriving DecidableEq

/-- Structured analysis result (type `AnalysisResult`). -/
structure AnalysisResult where
  hazards : List Hazard
  overallAssessment : Overall
  metadata : AnalysisMetadata
deriving DecidableEq

/-! ## Error and alert taxonomy

The source stores fixed error-message strings in its `error` state slot and
raises fixed alert dialogs.  Each distinct message constant of the source is
one constructor here; the dynamic parts (HTTP status, truncated body) are
constructor arguments. -/

/-- The distinct error messages the analyze pipeline can store in `error`:
`authRequired` is the message thrown by `buildAuthHeaders` when no token is
obtained; `authFailed` the 401 message; `payloadTooLarge` the 413 message;
`uploadFailed`/`analyzeFailed` the generic non-2xx messages carrying status
and truncated body; `uploadMissingUrl` the missing-url message;
`unexpectedAnalyzeResponse` the message for a 2xx analyze response without an
`analysis` payload. -/
inductive PipelineError where
  | authRequired
  | authFailed
  | payloadTooLarge
  | uploadFailed (status : Nat) (body : String)
  | uploadMissingUrl
  | analyzeFailed (status : Nat) (body : String)
  | unexpectedAnalyzeResponse
deriving DecidableEq

/-- The alert dialogs the analyze entry guards can raise:
`noImage` is the No-image alert, `authenticationRequired` the
Authentication-Required alert shown when no session is active. -/
inductive AlertMsg where
  | noImage
  | authenticationRequired
deriving DecidableEq

/-! ## Screen state and environment -/

/-- The pipeline-relevant mutable state of `AnalyzePhotoScreen`:
`imageUri`/`imageBase64`/`mimeType` from the image acquisition step,
the `uploading`/`analyzing` progress flags, and the `error`/`result` slots. -/
structure ScreenState where
  imageUri : Option String
  imageBase64 : Option String
  mimeType : String
  uploading : Bool
  analyzing : Bool
  error : Option PipelineError
  result : Option AnalysisResult
deriving DecidableEq

/-- Data returned by the external collaborators during one analyze run:
whether a Clerk session is active, the two token retrievals (the pipeline
requests a token immediately before each authenticated call; `none` models a
failed or absent token), the upload response (status, body text, parsed
`ok`/`url` fields) and the analyze response (status, body text, parsed `ok`
flag and optional `analysis` payload). -/
structure AnalyzeEnv where
  sessionActive : Bool
  token1 : Option String
  token2 : Option String
  uploadStatus : Nat
  uploadText : String
  uploadOk : Bool
  uploadUrl : Option String
  analyzeStatus : Nat
  analyzeText : String
  analyzeJsonOk : Bool
  analysis : Option AnalysisResult
deriving DecidableEq

/-- `Response.ok` of the fetch API: status in the 2xx range. -/
def respOk (status : Nat) : Bool := 200 ≤ status && status ≤ 299

/-- `hasImage` from the source: both a uri and a base64 payload are held. -/
def hasImage (s : ScreenState) : Bool := s.imageUri.isSome && s.imageBase64.isSome

def uploadEndpoint : String := "/api/uploads/base64"

def analyzeEndpoint : String := "/api/inspections/analyze"

/-- The observable outcome of one invocation of `analyze`: the final screen
state, the endpoints fetched in order, the base64 payload sent to the upload
endpoint (`none` when the upload request was never issued), whether
`fetchRecent` (the history refresh) was invoked, the values of the
`(uploading, analyzing)` flag pair at every suspension point (every `await`
reached), and the alert raised by an entry guard, if any. -/
structure AnalyzeRun where
  finalState : ScreenState
  networkCalls : List String
  uploadBody : Option String
  fetchRecentCalled : Bool
  suspensions : List (Bool × Bool)
  alert : Option AlertMsg
deriving DecidableEq

/-! ## The analyze operation (AnalyzePhotoScreen.tsx lines 251-329)

Control flow of the source, in order: the `hasImage` guard (No-image alert),
the session guard (Authentication-Required alert), clearing `error` and
`result`, `setUploading(true)`, `await buildAuthHeaders()` (throws the
auth-required error when no token), `await fetch(upload)`, on non-2xx
`await text()` then throw the mapped error (401, 413, generic), on 2xx
`await json()` and throw when `ok`/`url` is missing, `setUploading(false)`
immediately followed by `setAnalyzing(true)` with no `await` in between,
`await buildAuthHeaders()`, `await fetch(analyze)`, on non-2xx `await text()`
then throw (401, generic), on 2xx `await json()`; a response without an
`analysis` payload throws the unexpected-response error; otherwise the result
is stored and `fetchRecent()` is invoked.  Every thrown error is caught and
stored in `error`; the `finally` block resets both progress flags. -/

def analyze (s : ScreenState) (env : AnalyzeEnv) : AnalyzeRun :=
  if !(hasImage s) then
    { finalState := s, networkCalls := [], uploadBody := none,
      fetchRecentCalled := false, suspensions := [], alert := some AlertMsg.noImage }
  else if !env.sessionActive then
    { finalState := s, networkCalls := [], uploadBody := none,
      fetchRecentCalled := false, suspensions := [],
      alert := some AlertMsg.authenticationRequired }
  else
    let s1 : ScreenState := { s with error := none, result := none, uploading := true }
    match env.token1 with
    | none =>
        { finalState := { s1 with error := some PipelineError.authRequired,
                                  uploading := false, analyzing := false },
          networkCalls := [], uploadBody := none, fetchRecentCalled := false,
          suspensions := [(true, s.analyzing)], alert := none }
    | some _ =>
        let callsU : List String := [uploadEndpoint]
        let suspU : List (Bool × Bool) := [(true, s.analyzing), (true, s.analyzing)]
        if !(respOk env.uploadStatus) then
          let e : PipelineError :=
            if env.uploadStatus == 401 then PipelineError.authFailed
            else if env.uploadStatus == 413 then PipelineError.payloadTooLarge
            else PipelineError.uploadFailed env.uploadStatus (env.uploadText.take 300)
          { finalState := { s1 with error := some e, uploading := false, analyzing := false },
            networkCalls := callsU, uploadBody := s.imageBase64, fetchRecentCalled := false,
            suspensions := suspU ++ [(true, s.analyzing)], alert := none }
        else if !env.uploadOk || env.uploadUrl.isNone then
          { finalState := { s1 with error := some PipelineError.uploadMissingUrl,
                                    uploading := false, analyzing := false },
            networkCalls := callsU, uploadBody := s.imageBase64, fetchRecentCalled := false,
            suspensions := suspU ++ [(true, s.analyzing)], alert := none }
        else
          let s2 : ScreenState := { s1 with uploading := false, analyzing := true }
          let suspA : List (Bool × Bool) := suspU ++ [(true, s.analyzing)]
          match env.token2 with
          | none =>
              { finalState := { s2 with error := some PipelineError.authRequired,
                                        uploading := false, analyzing := false },
                networkCalls := callsU, uploadBody := s.imageBase64,
                fetchRecentCalled := false,
                suspensions := suspA ++ [(false, true)], alert := none }
          | some _ =>
              let calls2 : List String := callsU ++ [analyzeEndpoint]
              let susp2 : List (Bool × Bool) := suspA ++ [(false, true), (false, true)]
              if !(respOk env.analyzeStatus) then
                let e : PipelineError :=
                  if env.analyzeStatus == 401 then PipelineError.authFailed
                  else PipelineError.analyzeFailed env.analyzeStatus (env.analyzeText.take 400)
                { finalState := { s2 with error := some e,
                                          uploading := false, analyzing := false },
                  networkCalls := calls2, uploadBody := s.imageBase64,
                  fetchRecentCalled := false,
                  suspensions := susp2 ++ [(false, true)], alert := none }
              else if !env.analyzeJsonOk || env.analysis.isNone then
                { finalState := { s2 with error := some PipelineError.unexpectedAnalyzeResponse,
                                          uploading := false, analyzing := false },
                  networkCalls := calls2, uploadBody := s.imageBase64,
                  fetchRecentCalled := false,
                  suspensions := susp2 ++ [(false, true)], alert := none }
              else
                { finalState := { s2 with result := env.analysis,
                                          uploading := false, analyzing := false },
                  networkCalls := calls2, uploadBody := s.imageBase64,
                  fetchRecentCalled := true,
                  suspensions := susp2 ++ [(false, true)], alert := none }

/-- The disabled condition of the Analyze button
(`disabled={!hasImage || uploading || analyzing}`, lines 406-410). -/
def analyzeButtonDisabled (s : ScreenState) : Bool :=
  !(hasImage s) || s.uploading || s.analyzing

/-- A run in which nothing happened: state unchanged, no network traffic. -/
def noRun (s : ScreenState) : AnalyzeRun :=
  { finalState := s, networkCalls := [], uploadBody := none,
    fetchRecentCalled := false, suspensions := [], alert := none }

/-- Pressing the Analyze button: `TouchableOpacity` does not fire `onPress`
while `disabled`, so a press while the button is disabled is a no-op; this is
the only caller of `analyze` in the program. -/
def pressAnalyze (s : ScreenState) (env : AnalyzeEnv) : AnalyzeRun :=
  if analyzeButtonDisabled s then noRun s else analyze s env

/-! ## Image acquisition and client-side compression
(AnalyzePhotoScreen.tsx lines 164-248) -/

/-- Metadata of an image asset returned by the expo image picker: its local
uri, optional base64 payload, optional mime type (modelled as `Option`; the
source uses falsy-string fallback), and pixel dimensions. -/
structure Asset where
  uri : String
  base64 : Option String
  mimeType : Option String
  width : Nat
  height : Nat
deriving DecidableEq

/-- `guessMimeFromUri` from the source helpers (lines 564-572). -/
def guessMimeFromUri (uri : Option String) : Option String :=
  match uri with
  | none => none
  | some u =>
      let lower := u.toLower
      if lower.endsWith ".png" then some "image/png"
      else if lower.endsWith ".jpg" || lower.endsWith ".jpeg" then some "image/jpeg"
      else if lower.endsWith ".webp" then some "image/webp"
      else if lower.endsWith ".heic" then some "image/heic"
      else none

/-- The resize action `[{ resize: { width: maxSide } }]` of
expo-image-manipulator with only a width given: the output width is the
target and the height is scaled to preserve the aspect ratio (floor
rounding; the exact rounding mode is irrelevant to the claims below). -/
def resizeToWidth (w h targetW : Nat) : Nat × Nat := (targetW, h * targetW / w)

/-- Output of `compressClientSide`: the fields the source returns (`uri`,
`mime`, `base64`, `approxBytes`) plus the dimensions of the re-encoded image
and the `compress` quality passed to the encoder, recorded as a percentage
(the source literal 0.7 becomes 70) to stay within the naturals. -/
structure CompressOut where
  uri : String
  mime : String
  base64 : Option String
  approxBytes : Nat
  width : Nat
  height : Nat
  qualityPercent : Nat
deriving DecidableEq

/-- `compressClientSide(uri, maxSide = 1600, quality = 0.7)` (lines 165-177):
one `manipulateAsync` call with a resize-to-width action, JPEG output format
and base64 requested.  The re-encoded bytes come from the native encoder and
are supplied by the environment as `outBase64`; the mime is forced to
image/jpeg; `approxBytes` is `Math.floor(base64.length * 0.75)` when a
payload is returned and 0 otherwise. -/
def compressClientSide (img : Asset) (outUri : String) (outBase64 : Option String)
    (maxSide : Nat) (qualityPercent : Nat) : CompressOut :=
  let dims := resizeToWidth img.width img.height maxSide
  { uri := outUri
    mime := "image/jpeg"
    base64 := outBase64
    approxBytes := match outBase64 with
      | some b => b.length * 3 / 4
      | none => 0
    width := dims.1
    height := dims.2
    qualityPercent := qualityPercent }

/-- The compression trigger of `handleTakePhoto`/`handlePickFromGallery`
(`!b64 || (b64.length * 0.75) > 3_000_000`): fires when the base64 payload is
unavailable or its approximate decoded size `length * 0.75` exceeds
3,000,000 bytes, stated over the naturals as `length * 3 > 12,000,000`. -/
def needsCompress (b64 : Option String) : Bool :=
  match b64 with
  | none => true
  | some b => b.length * 3 > 12000000

/-- Outcome of processing one picked asset: the updated screen state, whether
the compress transform ran, and the pixel dimensions of the image the held
payload encodes (the asset dimensions when stored natively, the resized
dimensions when the transform ran). -/
structure AcquireRun where
  state : ScreenState
  compressed : Bool
  storedWidth : Nat
  storedHeight : Nat
deriving DecidableEq

/-- Core of `handleTakePhoto` (lines 199-212) and `handlePickFromGallery`
(lines 234-247), entered after permission is granted and a non-cancelled
asset with a uri is returned (the function cleared `error` at entry):
take the native base64 and mime (with the uri-based and image/jpeg
fallbacks), compress client-side when the trigger fires, and store
uri/base64/mime while clearing `result` when a payload is held. -/
def acquireAsset (s : ScreenState) (a : Asset) (manipUri : String)
    (manipBase64 : Option String) : AcquireRun :=
  let s0 : ScreenState := { s with error := none }
  let mt0 : String :=
    match a.mimeType with
    | some m => m
    | none =>
        match guessMimeFromUri (some a.uri) with
        | some m => m
        | none => "image/jpeg"
  if needsCompress a.base64 then
    let c := compressClientSide a manipUri manipBase64 1600 70
    match c.base64 with
    | some b =>
        { state := { s0 with imageUri := some a.uri, imageBase64 := some b,
                             mimeType := c.mime, result := none },
          compressed := true, storedWidth := c.width, storedHeight := c.height }
    | none =>
        { state := s0, compressed := true,
          storedWidth := c.width, storedHeight := c.height }
  else
    match a.base64 with
    | some b =>
        { state := { s0 with imageUri := some a.uri, imageBase64 := some b,
                             mimeType := mt0, result := none },
          compressed := false, storedWidth := a.width, storedHeight := a.height }
    | none =>
        { state := s0, compressed := false,
          storedWidth := a.width, storedHeight := a.height }

/-! ## Hazard grouping (the `sections` useMemo, lines 363-374; the inspection
detail screen computes `hazardSections` by the identical algorithm) -/

/-- Insert one hazard into the insertion-ordered category map, following JS
`Map` semantics: an existing key keeps its position and its value list is
appended to; a new key is appended at the end. -/
def insertGroup : List (String × List Hazard) → Hazard → List (String × List Hazard)
  | [], h => [(h.category, [h])]
  | (c, hs) :: rest, h =>
      if c = h.category then (c, hs ++ [h]) :: rest
      else (c, hs) :: insertGroup rest h

/-- The `Map` built by the grouping loop, as an insertion-ordered
association list. -/
def groupMap (hs : List Hazard) : List (String × List Hazard) :=
  hs.foldl insertGroup []

/-- The sort comparator `(a, b) => a[0].localeCompare(b[0])` on map entries.
On the eight fixed `HazardCategory` names every comparison is decided at the
first differing character, where locale collation and codepoint order agree,
so the comparator is modelled by codepoint order on the keys. -/
def secLE (a b : String × List Hazard) : Prop := a.1 ≤ b.1

instance : DecidableRel secLE := fun a b => inferInstanceAs (Decidable (a.1 ≤ b.1))

instance : IsTotal (String × List Hazard) secLE := ⟨fun a b => le_total a.1 b.1⟩

instance : IsTrans (String × List Hazard) secLE := ⟨fun _ _ _ h1 h2 => le_trans h1 h2⟩

/-- The `sections` useMemo: `[]` when the hazard list is empty, otherwise the
map entries sorted by key.  `Array.prototype.sort` with a total comparator
over distinct keys returns the unique sorted permutation, so it is modelled
by insertion sort. -/
def sectionsOf (hs : List Hazard) : List (String × List Hazard) :=
  if hs.length = 0 then [] else List.insertionSort secLE (groupMap hs)

/-- The specification of `group(hazards)` stated in its own words, for
comparison with `sectionsOf`: one section per category present, sections
ordered by category name, each section holding the hazards of its category
in source-list order. -/
def canonicalSections (hs : List Hazard) : List (String × List Hazard) :=
  (List.insertionSort (· ≤ ·) (hs.map Hazard.category).dedup).map
    (fun c => (c, hs.filter (fun h => h.category = c)))

/-! ## Inspection refresh (`useInspectionData.fetchInspection`,
inspection detail screen) -/

/-- Processing status of an inspection:
`pending | processing | completed | failed`. -/
inductive ProcessingStatus where
  | pending
  | processing
  | completed
  | failed
deriving DecidableEq

/-- One inspection record as returned by `GET /api/inspections/id`
(interface `Inspection` of the detail screen). -/
structure InspectionRec where
  id : String
  imageUrl : String
  hazardCount : Option Nat
  riskScore : Option Nat
  safetyGrade : Option String
  analysisResults : Option AnalysisResult
  processingStatus : ProcessingStatus
deriving DecidableEq

/-- The distinct error messages `fetchInspection` can store:
`noInspectionId` (no id provided), `authRequiredGuard` (no session, guarded
before the request), `authRequired` (thrown by `buildAuthHeaders`),
`authFailed` (401), `notFound` (404), `loadFailed` (other non-2xx with status
and body), `invalidResponseFormat` (2xx body with `ok` false). -/
inductive FetchError where
  | noInspectionId
  | authRequiredGuard
  | authRequired
  | authFailed
  | notFound
  | loadFailed (status : Nat) (body : String)
  | invalidResponseFormat
deriving DecidableEq

/-- State of the `useInspectionData` hook. -/
structure InspState where
  loading : Bool
  refreshing : Bool
  error : Option FetchError
  inspectionData : Option InspectionRec
deriving DecidableEq

/-- Data the external collaborators return during one `fetchInspection` call:
session presence, the token retrieval, and the response (status, parsed `ok`
flag, inspection payload, body text). -/
structure FetchEnv where
  sessionActive : Bool
  token : Option String
  status : Nat
  bodyOk : Bool
  inspection : InspectionRec
  bodyText : String
deriving DecidableEq

/-- `fetchInspection(isRefresh)` from the detail screen: the no-id and
no-session guards return early (setting the error and clearing `loading`
without touching `refreshing`, as the early returns bypass the `finally`
block); otherwise `loading` is set unless refreshing, `error` cleared,
headers built (throwing the auth-required error on a missing token), the
response mapped (401, 404, other non-2xx, invalid body) or, on success, the
response stored verbatim in `inspectionData`; the `finally` block clears
`loading` and `refreshing`. -/
def fetchInspection (idv : Option String) (isRefresh : Bool) (s : InspState)
    (env : FetchEnv) : InspState :=
  match idv with
  | none => { s with error := some FetchError.noInspectionId, loading := false }
  | some _ =>
      if !env.sessionActive then
        { s with error := some FetchError.authRequiredGuard, loading := false }
      else
        let s1 : InspState :=
          { s with loading := (if isRefresh then s.loading else true), error := none }
        match env.token with
        | none =>
            { s1 with error := some FetchError.authRequired,
                      loading := false, refreshing := false }
        | some _ =>
            if !(respOk env.status) then
              let e : FetchError :=
                if env.status == 401 then FetchError.authFailed
                else if env.status == 404 then FetchError.notFound
                else FetchError.loadFailed env.status env.bodyText
              { s1 with error := some e, loading := false, refreshing := false }
            else if !env.bodyOk then
              { s1 with error := some FetchError.invalidResponseFormat,
                        loading := false, refreshing := false }
            else
              { s1 with inspectionData := some env.inspection,
                        loading := false, refreshing := false }

/-- A `fetchInspection` call reaches the success path exactly when an id is
provided, a session is active, a token is obtained, the response is 2xx and
its body parses with `ok` true. -/
def fetchSucceeds (idv : Option String) (env : FetchEnv) : Bool :=
  idv.isSome && env.sessionActive && env.token.isSome && respOk env.status && env.bodyOk

/-- Rank of a processing status along the one-directional lifecycle
`pending → processing → completed/failed` (the two terminal states share the
top rank). -/
def statusRank : ProcessingStatus → Nat
  | ProcessingStatus.pending => 0
  | ProcessingStatus.processing => 1
  | ProcessingStatus.completed => 2
  | ProcessingStatus.failed => 2

/-- Non-regression order on statuses. -/
def rankLE (a b : ProcessingStatus) : Prop := statusRank a ≤ statusRank b

instance : DecidableRel rankLE := fun a b =>
  inferInstanceAs (Decidable (statusRank a ≤ statusRank b))

/-- The status list the observed inspection data contributes:
one element when data is held, none otherwise. -/
def dataStatuses : Option InspectionRec → List ProcessingStatus
  | some i => [i.processingStatus]
  | none => []

/-- The statuses the server returns on the successful fetches of a refresh
sequence, in order. -/
def serverStatuses (idv : Option String) : List FetchEnv → List ProcessingStatus
  | [] => []
  | e :: rest =>
      if fetchSucceeds idv e then
        e.inspection.processingStatus :: serverStatuses idv rest
      else serverStatuses idv rest

/-- The status the caller observes after each refresh of a sequence (one
observation per refresh whose resulting state holds inspection data). -/
def observedStatuses (idv : Option String) : InspState → List FetchEnv → List ProcessingStatus
  | _, [] => []
  | s, e :: rest =>
      dataStatuses (fetchInspection idv true s e).inspectionData ++
        observedStatuses idv (fetchInspection idv true s e) rest

/-! ## Association-list helpers for the grouping proofs -/

/-- Lookup in the insertion-ordered category map. -/
def lookupG (c : String) : List (String × List Hazard) → Option (List Hazard)
  | [] => none
  | (k, v) :: rest => if k = c then some v else lookupG c rest

/-- Combine a prior lookup result with further hazards of the same category. -/
def combineG (o : Option (List Hazard)) (f : List Hazard) : Option (List Hazard) :=
  match o with
  | some xs => some (xs ++ f)
  | none => if f.isEmpty then none else some f

/-! ## Concrete fixtures used by witnesses and counterexamples -/

/-- Screen state before any image is acquired. -/
def initialScreenState : ScreenState :=
  { imageUri := none, imageBase64 := none, mimeType := "image/jpeg",
    uploading := false, analyzing := false, error := none, result := none }

/-- Screen state holding an acquired image. -/
def readyState : ScreenState :=
  { initialScreenState with imageUri := some "file.jpg", imageBase64 := some "QUJD" }

/-- A minimal analysis result fixture. -/
def emptyAnalysis : AnalysisResult :=
  { hazards := [],
    overallAssessment :=
      { riskScore := 0, safetyGrade := "A", topPriorities := [], complianceStandards := none },
    metadata := { analysisTime := 0, tokensUsed := 0, confidence := 0 } }

/-- An environment in which every external call of a run succeeds. -/
def okEnv : AnalyzeEnv :=
  { sessionActive := true, token1 := some "t1", token2 := some "t2",
    uploadStatus := 200, uploadText := "", uploadOk := true,
    uploadUrl := some "https://x/y.jpg",
    analyzeStatus := 200, analyzeText := "", analyzeJsonOk := true,
    analysis := some emptyAnalysis }

/-- A base64 string of `n` characters (only its length matters). -/
def bigB64 (n : Nat) : String := String.mk (List.replicate n 'a')

/-- A camera asset whose base64 payload is 4,000,004 characters, so its
approximate decoded size 3,000,003 bytes exceeds the 3,000,000 threshold. -/
def hugeAsset : Asset :=
  { uri := "p.jpg", base64 := some (bigB64 4000004), mimeType := some "image/jpeg",
    width := 4000, height := 3000 }

/-- A portrait asset (height greater than width) with no native base64
payload, so the compression trigger fires. -/
def portraitAsset : Asset :=
  { uri := "photo.jpg", base64 := none, mimeType := some "image/jpeg",
    width := 800, height := 1600 }

/-- Inspection fixture with a given processing status. -/
def inspFix (st : ProcessingStatus) : InspectionRec :=
  { id := "abc", imageUrl := "u", hazardCount := none, riskScore := none,
    safetyGrade := none, analysisResults := none, processingStatus := st }

/-- Successful fetch environment returning an inspection with status `st`. -/
def feFix (st : ProcessingStatus) : FetchEnv :=
  { sessionActive := true, token := some "t", status := 200, bodyOk := true,
    inspection := inspFix st, bodyText := "" }

/-- Initial state of the `useInspectionData` hook. -/
def inspS0 : InspState :=
  { loading := true, refreshing := false, error := none, inspectionData := none }

/-- Screen state with an image while an upload is in flight. -/
def busyState : ScreenState := { readyState with uploading := true }

/-- Environment with no active session. -/
def noSessionEnv : AnalyzeEnv := { okEnv with sessionActive := false }

/-! ## Theorems -/

/-- Helper: `fetchRecent` is invoked by a run only when the run stores a
result and clears the error slot, i.e. only on entry to the completed
outcome. -/
theorem analyze_fetchRecent_success (s : ScreenState) (env : AnalyzeEnv)
    (h : (analyze s env).fetchRecentCalled = true) :
    (analyze s env).finalState.error = none ∧
    ((analyze s env).finalState.result).isSome = true := by
  unfold analyze at h ⊢
  repeat' split at h
  all_goals simp_all
  all_goals
    rcases hx : env.analysis with _ | a <;> simp_all

/-- C1: invoking the analyze operation while a run is already in the
uploading or analyzing stage starts no second run.  The sole call site of
`analyze` is the Analyze button, whose `disabled` prop rejects the press
while either progress flag is set, so the press leaves the state untouched
and issues no network call. -/
theorem pressAnalyze_reentrant_noop (s : ScreenState) (env : AnalyzeEnv)
    (h : s.uploading = true ∨ s.analyzing = true) :
    pressAnalyze s env = noRun s := by
  unfold pressAnalyze analyzeButtonDisabled
  rcases h with h | h <;> simp [h]

/-- Witness for C1 at a concrete in-flight state. -/
theorem pressAnalyze_reentrant_noop_witness :
    pressAnalyze busyState okEnv = noRun busyState :=
  pressAnalyze_reentrant_noop busyState okEnv (Or.inl rfl)

/-- C9: invoking analyze with no acquired image (no uri or no base64 payload
held) raises the No-image alert, performs no network call and leaves the
whole pipeline state unchanged. -/
theorem analyze_noImage_guard (s : ScreenState) (env : AnalyzeEnv)
    (h : hasImage s = false) :
    analyze s env =
      { finalState := s, networkCalls := [], uploadBody := none,
        fetchRecentCalled := false, suspensions := [],
        alert := some AlertMsg.noImage } := by
  unfold analyze
  simp [h]

/-- Witness for C9 at the initial state. -/
theorem analyze_noImage_guard_witness :
    analyze initialScreenState okEnv =
      { finalState := initialScreenState, networkCalls := [], uploadBody := none,
        fetchRecentCalled := false, suspensions := [],
        alert := some AlertMsg.noImage } :=
  analyze_noImage_guard initialScreenState okEnv (by decide)

/-- C7 counterexample: invoking analyze with no image held and no active
session fails with the No-image alert, not AuthRequired, because the image
guard precedes the session guard; the claim is false for such invocations
(no network call is made either way). -/
theorem analyze_authRequired_counterexample :
    (analyze initialScreenState noSessionEnv).alert = some AlertMsg.noImage ∧
    (analyze initialScreenState noSessionEnv).alert ≠ some AlertMsg.authenticationRequired ∧
    (analyze initialScreenState noSessionEnv).finalState.error ≠ some PipelineError.authRequired ∧
    (analyze initialScreenState noSessionEnv).networkCalls = [] := by
  decide

/-- C7 (amended): when an image is held, invoking analyze with no active
session raises the Authentication-Required alert and leaves the state
unchanged, and invoking it with a failing token retrieval stores the
AuthRequired error; in both cases no network call is attempted (header
building fails before any request). -/
theorem analyze_authRequired_no_network (s : ScreenState) (env : AnalyzeEnv)
    (himg : hasImage s = true)
    (h : env.sessionActive = false ∨ env.token1 = none) :
    (analyze s env).networkCalls = [] ∧
    (analyze s env).uploadBody = none ∧
    (env.sessionActive = false →
      (analyze s env).alert = some AlertMsg.authenticationRequired ∧
      (analyze s env).finalState = s) ∧
    (env.sessionActive = true → env.token1 = none →
      (analyze s env).finalState.error = some PipelineError.authRequired ∧
      (analyze s env).finalState.uploading = false ∧
      (analyze s env).finalState.analyzing = false) := by
  cases hsess : env.sessionActive
  · unfold analyze
    simp [himg, hsess]
  · rcases h with h | h
    · exact absurd hsess (by simp [h])
    · unfold analyze
      simp [himg, hsess, h]

/-- Witness for C7 (amended) at a concrete ready state with no session. -/
theorem analyze_authRequired_no_network_witness :
    (analyze readyState noSessionEnv).networkCalls = [] ∧
    (analyze readyState noSessionEnv).alert = some AlertMsg.authenticationRequired := by
  have h := analyze_authRequired_no_network readyState noSessionEnv (by decide) (Or.inl rfl)
  exact ⟨h.1, (h.2.2.1 rfl).1⟩

/-- C5: a 2xx analyze response whose body lacks the `analysis` payload makes
the run terminate failed with the UnexpectedResponse error, with both
progress flags reset (never treated as still processing), no stored result
and no history refresh. -/
theorem analyze_missing_analysis (s : ScreenState) (env : AnalyzeEnv)
    (himg : hasImage s = true) (hsess : env.sessionActive = true)
    (t1 : String) (ht1 : env.token1 = some t1)
    (hup : respOk env.uploadStatus = true) (hupok : env.uploadOk = true)
    (u : String) (hurl : env.uploadUrl = some u)
    (t2 : String) (ht2 : env.token2 = some t2)
    (han : respOk env.analyzeStatus = true) (hmiss : env.analysis = none) :
    (analyze s env).finalState.error = some PipelineError.unexpectedAnalyzeResponse ∧
    (analyze s env).finalState.result = none ∧
    (analyze s env).finalState.uploading = false ∧
    (analyze s env).finalState.analyzing = false ∧
    (analyze s env).fetchRecentCalled = false := by
  unfold analyze
  simp [himg, hsess, ht1, hup, hupok, hurl, ht2, han, hmiss]

/-- Witness for C5 at a concrete environment whose analyze response has no
analysis payload. -/
theorem analyze_missing_analysis_witness :
    (analyze readyState { okEnv with analysis := none }).finalState.error =
      some PipelineError.unexpectedAnalyzeResponse :=
  (analyze_missing_analysis readyState { okEnv with analysis := none }
    (by decide) rfl "t1" rfl (by decide) rfl "https://x/y.jpg" rfl "t2" rfl
    (by decide) rfl).1

/-- C6: an upload answered with HTTP 413 terminates the run failed with the
PayloadTooLarge error and no history refresh; moreover the history refresh
is invoked only by runs that reach the completed outcome. -/
theorem analyze_413_payloadTooLarge (s : ScreenState) (env : AnalyzeEnv)
    (himg : hasImage s = true) (hsess : env.sessionActive = true)
    (t1 : String) (ht1 : env.token1 = some t1)
    (h413 : env.uploadStatus = 413) :
    ((analyze s env).finalState.error = some PipelineError.payloadTooLarge ∧
     (analyze s env).fetchRecentCalled = false ∧
     (analyze s env).finalState.result = none ∧
     (analyze s env).finalState.uploading = false ∧
     (analyze s env).finalState.analyzing = false) ∧
    (∀ s2 env2, (analyze s2 env2).fetchRecentCalled = true →
      (analyze s2 env2).finalState.error = none ∧
      ((analyze s2 env2).finalState.result).isSome = true) := by
  constructor
  · unfold analyze
    simp [himg, hsess, ht1, h413, respOk]
  · intro s2 env2 hcall
    exact analyze_fetchRecent_success s2 env2 hcall

/-- Witness for C6 at a concrete 413 environment. -/
theorem analyze_413_payloadTooLarge_witness :
    (analyze readyState { okEnv with uploadStatus := 413 }).finalState.error =
      some PipelineError.payloadTooLarge ∧
    (analyze readyState { okEnv with uploadStatus := 413 }).fetchRecentCalled = false := by
  have h := analyze_413_payloadTooLarge readyState { okEnv with uploadStatus := 413 }
    (by decide) rfl "t1" rfl rfl
  exact ⟨h.1.1, h.1.2.1⟩

/-- C10: starting from a run entry (both progress flags clear, as guaranteed
by the disabled-button guard at the only call site), the uploading and
analyzing flags are never simultaneously true at any suspension point of the
run (uploading is dropped before analyzing is raised, with no await in
between), and every exit path resets both flags. -/
theorem analyze_flag_discipline (s : ScreenState) (env : AnalyzeEnv)
    (hu : s.uploading = false) (ha : s.analyzing = false) :
    (analyze s env).suspensions.all (fun p => !(p.1 && p.2)) = true ∧
    (analyze s env).finalState.uploading = false ∧
    (analyze s env).finalState.analyzing = false := by
  unfold analyze
  repeat' split
  all_goals simp_all

/-- Witness for C10 at a concrete successful run. -/
theorem analyze_flag_discipline_witness :
    (analyze readyState okEnv).suspensions.all (fun p => !(p.1 && p.2)) = true ∧
    (analyze readyState okEnv).finalState.uploading = false ∧
    (analyze readyState okEnv).finalState.analyzing = false :=
  analyze_flag_discipline readyState okEnv rfl rfl

/-- C3 counterexample: a portrait image (800 by 1600 px) with no native
payload triggers re-encoding, and the transform sets the width to 1600 and
scales the height to 3200, so the longer side of the produced image exceeds
1600 px. -/
theorem compress_longSide_counterexample :
    needsCompress portraitAsset.base64 = true ∧
    (compressClientSide portraitAsset "out.jpg" (some "zz") 1600 70).width = 1600 ∧
    (compressClientSide portraitAsset "out.jpg" (some "zz") 1600 70).height = 3200 ∧
    ¬ (max (compressClientSide portraitAsset "out.jpg" (some "zz") 1600 70).width
        (compressClientSide portraitAsset "out.jpg" (some "zz") 1600 70).height ≤ 1600) := by
  decide

/-- C3 (amended): the re-encode transform always forces the output mime to
image/jpeg and re-encodes at quality 0.7, resizing to width exactly 1600
with the height scaled to preserve the aspect ratio; the longer side is
therefore at most 1600 px whenever the source height does not exceed its
width (for portrait sources the output height exceeds 1600 px). -/
theorem compress_mime_quality_bound (a : Asset) (u : String) (b : Option String)
    (hw : 0 < a.width) (hh : a.height ≤ a.width) :
    (compressClientSide a u b 1600 70).mime = "image/jpeg" ∧
    (compressClientSide a u b 1600 70).qualityPercent = 70 ∧
    (compressClientSide a u b 1600 70).width = 1600 ∧
    (compressClientSide a u b 1600 70).height = a.height * 1600 / a.width ∧
    max (compressClientSide a u b 1600 70).width
      (compressClientSide a u b 1600 70).height ≤ 1600 := by
  refine ⟨rfl, rfl, rfl, rfl, ?_⟩
  show max 1600 (a.height * 1600 / a.width) ≤ 1600
  have h1 : a.height * 1600 ≤ a.width * 1600 := Nat.mul_le_mul_right _ hh
  have h2 : a.height * 1600 / a.width ≤ a.width * 1600 / a.width := Nat.div_le_div_right h1
  have h3 : a.width * 1600 / a.width = 1600 := Nat.mul_div_cancel_left _ hw
  exact max_le le_rfl (le_of_le_of_eq h2 h3)

/-- Witness for C3 (amended) at a concrete landscape asset. -/
theorem compress_mime_quality_bound_witness :
    (compressClientSide hugeAsset "m.jpg" (some "zz") 1600 70).mime = "image/jpeg" ∧
    max (compressClientSide hugeAsset "m.jpg" (some "zz") 1600 70).width
      (compressClientSide hugeAsset "m.jpg" (some "zz") 1600 70).height ≤ 1600 := by
  have h := compress_mime_quality_bound hugeAsset "m.jpg" (some "zz") (by decide) (by decide)
  exact ⟨h.1, h.2.2.2.2⟩

/-- The length of the replicate-based payload fixture. -/
theorem bigB64_length (n : Nat) : (bigB64 n).length = n := by
  simp [bigB64, String.length]

/-- Helper: whatever payload a run uploads is exactly the base64 held in the
screen state at entry. -/
theorem analyze_uploadBody (s : ScreenState) (env : AnalyzeEnv) :
    (analyze s env).uploadBody = none ∨ (analyze s env).uploadBody = s.imageBase64 := by
  unfold analyze
  repeat' split
  all_goals simp

/-- C4 counterexample: an asset whose payload exceeds the threshold is
compressed, but the stored payload is whatever the encoder returns — here a
5,000,000-character payload replacing a 4,000,004-character one — so the
resulting encoded payload is not less than or equal to the original one. -/
theorem acquire_compress_counterexample :
    hugeAsset.base64 = some (bigB64 4000004) ∧
    (bigB64 4000004).length * 3 > 12000000 ∧
    (acquireAsset initialScreenState hugeAsset "m.jpg" (some (bigB64 5000000))).compressed = true ∧
    (acquireAsset initialScreenState hugeAsset "m.jpg" (some (bigB64 5000000))).state.imageBase64 =
      some (bigB64 5000000) ∧
    ¬ ((bigB64 5000000).length ≤ (bigB64 4000004).length) := by
  have hb : needsCompress hugeAsset.base64 = true := by
    show needsCompress (some (bigB64 4000004)) = true
    simp only [needsCompress, bigB64_length, decide_eq_true_eq]
    decide
  refine ⟨rfl, ?_, ?_, ?_, ?_⟩
  · rw [bigB64_length]
    decide
  · simp [acquireAsset, hb, compressClientSide]
  · simp [acquireAsset, hb, compressClientSide]
  · rw [bigB64_length, bigB64_length]
    decide

/-- C4 (amended): whenever the acquired payload exceeds the 3,000,000-byte
threshold, the compress transform runs before the image is stored, and the
stored payload is exactly the transform output; any later analyze run
uploads exactly the stored payload, so compression indeed precedes the
uploading stage, but no size relation between the transform output and the
original payload is enforced by the code. -/
theorem acquire_compress_applied (s : ScreenState) (a : Asset) (mu : String)
    (mb : Option String) (b : String)
    (hb : a.base64 = some b) (hbig : b.length * 3 > 12000000) :
    (acquireAsset s a mu mb).compressed = true ∧
    (∀ c, mb = some c → (acquireAsset s a mu mb).state.imageBase64 = some c) ∧
    (∀ s2 env, (analyze s2 env).uploadBody = none ∨
      (analyze s2 env).uploadBody = s2.imageBase64) := by
  have hc : needsCompress a.base64 = true := by
    rw [hb]
    simp only [needsCompress, decide_eq_true_eq]
    exact hbig
  refine ⟨?_, ?_, fun s2 env => analyze_uploadBody s2 env⟩
  · cases hmb : mb <;> simp [acquireAsset, hc, compressClientSide, hmb]
  · intro c hmbc
    simp [acquireAsset, hc, compressClientSide, hmbc]

/-- Witness for C4 (amended) at a concrete over-threshold asset. -/
theorem acquire_compress_applied_witness :
    (acquireAsset initialScreenState hugeAsset "m.jpg" (some "small")).compressed = true ∧
    (acquireAsset initialScreenState hugeAsset "m.jpg" (some "small")).state.imageBase64 =
      some "small" := by
  have h := acquire_compress_applied initialScreenState hugeAsset "m.jpg" (some "small")
    (bigB64 4000004) rfl (by rw [bigB64_length]; decide)
  exact ⟨h.1, h.2.1 "small" rfl⟩

/-- Lookup distributes over a single map insertion. -/
theorem lookupG_insertGroup (m : List (String × List Hazard)) (h : Hazard) (c : String) :
    lookupG c (insertGroup m h) =
      if h.category = c then some ((lookupG c m).getD [] ++ [h]) else lookupG c m := by
  induction m with
  | nil =>
      by_cases hc : h.category = c <;> simp [insertGroup, lookupG, hc]
  | cons kv rest ih =>
      obtain ⟨k, v⟩ := kv
      by_cases hk : k = h.category
      · subst hk
        by_cases hc : h.category = c <;> simp [insertGroup, lookupG, hc]
      · simp only [insertGroup, if_neg hk]
        by_cases hc : k = c
        · subst hc
          have hck : ¬ h.category = k := fun e => hk e.symm
          simp [lookupG, hck]
        · simp [lookupG, hc, ih]

/-- Lookup after folding the grouping loop over a hazard list. -/
theorem lookupG_groupMap_aux (hs : List Hazard) :
    ∀ (m : List (String × List Hazard)) (c : String),
      lookupG c (hs.foldl insertGroup m) =
        combineG (lookupG c m) (hs.filter (fun x => x.category = c)) := by
  induction hs with
  | nil =>
      intro m c
      cases ho : lookupG c m <;> simp [combineG, ho]
  | cons h t ih =>
      intro m c
      rw [List.foldl_cons, ih, lookupG_insertGroup]
      by_cases hc : h.category = c
      · cases ho : lookupG c m <;>
          simp [combineG, hc, ho, List.filter_cons]
      · simp [hc, List.filter_cons]

/-- The key list after one insertion. -/
theorem insertGroup_keys (m : List (String × List Hazard)) (h : Hazard) :
    (insertGroup m h).map Prod.fst =
      if h.category ∈ m.map Prod.fst then m.map Prod.fst
      else m.map Prod.fst ++ [h.category] := by
  induction m with
  | nil => simp [insertGroup]
  | cons kv rest ih =>
      obtain ⟨k, v⟩ := kv
      by_cases hk : k = h.category
      · simp [insertGroup, hk]
      · have hk2 : ¬ h.category = k := fun e => hk e.symm
        by_cases hmem : h.category ∈ rest.map Prod.fst <;>
          simp [insertGroup, hk, hk2, hmem, ih]

/-- The grouping loop preserves distinctness of the keys. -/
theorem groupMap_keys_nodup_aux (hs : List Hazard) :
    ∀ m : List (String × List Hazard), ((m.map Prod.fst)).Nodup →
      (((hs.foldl insertGroup m).map Prod.fst)).Nodup := by
  induction hs with
  | nil => intro m hm; simpa using hm
  | cons h t ih =>
      intro m hm
      rw [List.foldl_cons]
      apply ih
      rw [insertGroup_keys]
      by_cases hmem : h.category ∈ m.map Prod.fst
      · simpa [hmem] using hm
      · simp [hmem, List.nodup_append, hm]

/-- A lookup succeeds exactly for the keys present in the map. -/
theorem lookupG_isSome (m : List (String × List Hazard)) (c : String) :
    (lookupG c m).isSome = true ↔ c ∈ m.map Prod.fst := by
  induction m with
  | nil => simp [lookupG]
  | cons kv rest ih =>
      obtain ⟨k, v⟩ := kv
      by_cases hk : k = c
      · simp [lookupG, hk]
      · have hck : ¬ c = k := fun e => hk e.symm
        simp [lookupG, hk, hck, ih]

/-- With distinct keys, every entry is recovered by looking up its key. -/
theorem lookupG_of_mem : ∀ m : List (String × List Hazard),
    ((m.map Prod.fst)).Nodup → ∀ e ∈ m, lookupG e.1 m = some e.2 := by
  intro m
  induction m with
  | nil =>
      intro _ e he
      cases he
  | cons kv rest ih =>
      intro hm e he
      obtain ⟨k, v⟩ := kv
      rw [List.map_cons, List.nodup_cons] at hm
      rcases List.mem_cons.mp he with he1 | he2
      · subst he1
        simp [lookupG]
      · have hk : ¬ k = e.1 := by
          intro hkk
          exact hm.1 (hkk ▸ List.mem_map.mpr ⟨e, he2, rfl⟩)
        rw [lookupG]
        rw [if_neg hk]
        exact ih hm.2 e he2

/-- C8: the grouping is exactly its specification: one section per category
present, sections ordered by category name under the total lexicographic
order (hence independent of input order), and each section lists its
hazards in source-list order (not re-sorted by severity or priority); being
a pure function of the list, repeated calls yield identical output. -/
theorem sectionsOf_eq_canonical (hs : List Hazard) :
    sectionsOf hs = canonicalSections hs := by
  by_cases hlen : hs.length = 0
  · have hnil : hs = [] := List.length_eq_zero.mp hlen
    subst hnil
    simp [sectionsOf, canonicalSections]
  · unfold sectionsOf
    rw [if_neg hlen]
    have hperm : List.Perm (List.insertionSort secLE (groupMap hs)) (groupMap hs) :=
      List.perm_insertionSort secLE (groupMap hs)
    have hsorted : List.Pairwise secLE (List.insertionSort secLE (groupMap hs)) :=
      List.sorted_insertionSort secLE (groupMap hs)
    have hnodupM : (((groupMap hs).map Prod.fst)).Nodup :=
      groupMap_keys_nodup_aux hs [] (by simp)
    have hlookup : ∀ c, lookupG c (groupMap hs) =
        combineG none (hs.filter (fun x => x.category = c)) := by
      intro c
      have h0 := lookupG_groupMap_aux hs [] c
      simpa [lookupG] using h0
    have hentry : ∀ e ∈ groupMap hs, e.2 = hs.filter (fun x => x.category = e.1) := by
      intro e he
      have h1 := lookupG_of_mem (groupMap hs) hnodupM e he
      rw [hlookup e.1] at h1
      cases hf : (hs.filter (fun x => x.category = e.1)).isEmpty <;>
        simp [combineG, hf] at h1
      exact h1.symm
    have hLentries : ∀ e ∈ List.insertionSort secLE (groupMap hs),
        e = (e.1, hs.filter (fun x => x.category = e.1)) := by
      intro e he
      have heM : e ∈ groupMap hs := hperm.mem_iff.mp he
      have h2 := hentry e heM
      obtain ⟨c, d⟩ := e
      exact congrArg (Prod.mk c) h2
    have hLdec : List.insertionSort secLE (groupMap hs) =
        ((List.insertionSort secLE (groupMap hs)).map Prod.fst).map
          (fun c => (c, hs.filter (fun x => x.category = c))) := by
      rw [List.map_map]
      conv_lhs => rw [← List.map_id (List.insertionSort secLE (groupMap hs))]
      exact List.map_congr_left (fun e he => hLentries e he)
    have hK1sorted : List.Pairwise (fun a b : String => a ≤ b)
        ((List.insertionSort secLE (groupMap hs)).map Prod.fst) :=
      List.pairwise_map.mpr hsorted
    have hK1nodup : (((List.insertionSort secLE (groupMap hs)).map Prod.fst)).Nodup :=
      ((hperm.map Prod.fst).nodup_iff).mpr hnodupM
    have hK1mem : ∀ c, c ∈ (List.insertionSort secLE (groupMap hs)).map Prod.fst ↔
        c ∈ hs.map Hazard.category := by
      intro c
      rw [(hperm.map Prod.fst).mem_iff, ← lookupG_isSome, hlookup c]
      have hiff : (combineG none (hs.filter (fun x => x.category = c))).isSome = true ↔
          ¬ (hs.filter (fun x => x.category = c)) = [] := by
        cases hf : (hs.filter (fun x => x.category = c)).isEmpty
        · rw [List.isEmpty_eq_false] at hf
          simp [combineG, hf]
        · rw [List.isEmpty_iff] at hf
          simp [combineG, hf]
      rw [hiff]
      constructor
      · intro hne
        rcases List.exists_mem_of_ne_nil _ hne with ⟨a, ha⟩
        have hmf := List.mem_filter.mp ha
        exact List.mem_map.mpr ⟨a, hmf.1, by simpa using hmf.2⟩
      · intro hmem hnil
        rcases List.mem_map.mp hmem with ⟨a, ha, hac⟩
        have hain : a ∈ hs.filter (fun x => x.category = c) :=
          List.mem_filter.mpr ⟨ha, by simpa using hac⟩
        rw [hnil] at hain
        cases hain
    have hK2sorted : List.Pairwise (fun a b : String => a ≤ b)
        (List.insertionSort (· ≤ ·) ((hs.map Hazard.category).dedup)) :=
      List.sorted_insertionSort (· ≤ ·) ((hs.map Hazard.category).dedup)
    have hK2nodup : (List.insertionSort (· ≤ ·) ((hs.map Hazard.category).dedup)).Nodup :=
      ((List.perm_insertionSort (· ≤ ·) ((hs.map Hazard.category).dedup)).nodup_iff).mpr
        (List.nodup_dedup _)
    have hK2mem : ∀ c, c ∈ List.insertionSort (· ≤ ·) ((hs.map Hazard.category).dedup) ↔
        c ∈ hs.map Hazard.category := by
      intro c
      rw [(List.perm_insertionSort (· ≤ ·) ((hs.map Hazard.category).dedup)).mem_iff,
        List.mem_dedup]
    have hkeq : (List.insertionSort secLE (groupMap hs)).map Prod.fst =
        List.insertionSort (· ≤ ·) ((hs.map Hazard.category).dedup) :=
      List.eq_of_perm_of_sorted
        ((List.perm_ext_iff_of_nodup hK1nodup hK2nodup).mpr
          (fun c => (hK1mem c).trans (hK2mem c).symm))
        hK1sorted hK2sorted
    rw [hLdec, hkeq]
    rfl

/-- Helper: the stored inspection after one refresh is exactly the server
response on success and the previous one otherwise. -/
theorem fetchInspection_data (idv : Option String) (r : Bool) (s : InspState)
    (env : FetchEnv) :
    (fetchInspection idv r s env).inspectionData =
      if fetchSucceeds idv env = true then some env.inspection
      else s.inspectionData := by
  cases idv with
  | none => simp [fetchInspection, fetchSucceeds]
  | some i =>
      cases hsess : env.sessionActive
      · simp [fetchInspection, fetchSucceeds, hsess]
      · cases ht : env.token with
        | none => simp [fetchInspection, fetchSucceeds, hsess, ht]
        | some t =>
            cases hro : respOk env.status
            · simp [fetchInspection, fetchSucceeds, hsess, ht, hro]
            · cases hb : env.bodyOk <;>
                simp [fetchInspection, fetchSucceeds, hsess, ht, hro, hb]

/-- Helper: prefixing the currently observed status, a refresh sequence whose
successful server responses never regress yields an observation sequence that
never regresses. -/
theorem observed_chain_aux (idv : Option String) :
    ∀ (envs : List FetchEnv) (s : InspState),
      List.Chain' rankLE (dataStatuses s.inspectionData ++ serverStatuses idv envs) →
      List.Chain' rankLE (dataStatuses s.inspectionData ++ observedStatuses idv s envs) := by
  intro envs
  induction envs with
  | nil =>
      intro s h
      rw [observedStatuses]
      rw [serverStatuses] at h
      exact h
  | cons e rest ih =>
      intro s h
      rw [observedStatuses]
      cases hsucc : fetchSucceeds idv e
      · have hdata : (fetchInspection idv true s e).inspectionData = s.inspectionData := by
          rw [fetchInspection_data, hsucc]
          simp
        have hsrv : serverStatuses idv (e :: rest) = serverStatuses idv rest := by
          rw [serverStatuses, hsucc]
          simp
        rw [hsrv] at h
        have ih2 := ih (fetchInspection idv true s e) (by rw [hdata]; exact h)
        rw [hdata] at ih2 ⊢
        cases hd : s.inspectionData with
        | none =>
            rw [hd] at ih2
            simpa [dataStatuses] using ih2
        | some i =>
            rw [hd] at ih2
            simp only [dataStatuses, List.singleton_append] at ih2 ⊢
            exact List.chain'_cons.mpr ⟨le_refl _, ih2⟩
      · have hdata : (fetchInspection idv true s e).inspectionData = some e.inspection := by
          rw [fetchInspection_data, hsucc]
          simp
        have hsrv : serverStatuses idv (e :: rest) =
            e.inspection.processingStatus :: serverStatuses idv rest := by
          rw [serverStatuses, hsucc]
          simp
        rw [hsrv] at h
        have hpre : List.Chain' rankLE
            (e.inspection.processingStatus :: serverStatuses idv rest) := by
          cases hd : s.inspectionData with
          | none =>
              rw [hd] at h
              simpa [dataStatuses] using h
          | some i =>
              rw [hd] at h
              simp only [dataStatuses, List.singleton_append] at h
              exact (List.chain'_cons.mp h).2
        have ih2 := ih (fetchInspection idv true s e)
          (by rw [hdata]; simpa [dataStatuses] using hpre)
        rw [hdata] at ih2 ⊢
        simp only [dataStatuses, List.singleton_append] at ih2
        cases hd : s.inspectionData with
        | none => simpa [dataStatuses] using ih2
        | some i =>
            rw [hd] at h
            simp only [dataStatuses, List.singleton_append] at h ⊢
            exact List.chain'_cons.mpr ⟨(List.chain'_cons.mp h).1, ih2⟩

/-- C2 counterexample: over two refreshes of the same inspection for which
the server returns a completed record first and a processing record second,
the caller observes completed followed by processing — a regression —
because `fetchInspection` stores each response verbatim with no
monotonicity check. -/
theorem fetchInspection_regression_counterexample :
    observedStatuses (some "abc") inspS0
        [feFix ProcessingStatus.completed, feFix ProcessingStatus.processing] =
      [ProcessingStatus.completed, ProcessingStatus.processing] ∧
    ¬ List.Chain' rankLE
        (observedStatuses (some "abc") inspS0
          [feFix ProcessingStatus.completed, feFix ProcessingStatus.processing]) := by
  have hobs : observedStatuses (some "abc") inspS0
      [feFix ProcessingStatus.completed, feFix ProcessingStatus.processing] =
      [ProcessingStatus.completed, ProcessingStatus.processing] := by
    decide
  refine ⟨hobs, ?_⟩
  rw [hobs]
  intro hch
  have hrel := (List.chain'_cons.mp hch).1
  simp [rankLE, statusRank] at hrel

/-- C2 (amended): the client introduces no regression of its own — a
successful refresh stores exactly the inspection the server returned and a
failed refresh leaves the stored inspection unchanged — hence, starting from
an empty cache, whenever the statuses the server returns over a refresh
sequence never regress, the observed status sequence never regresses.  (A
server response sequence that itself regresses makes the observation regress,
as the counterexample shows.) -/
theorem fetchInspection_no_client_regression :
    (∀ idv r s env, (fetchInspection idv r s env).inspectionData =
       if fetchSucceeds idv env = true then some env.inspection
       else s.inspectionData) ∧
    (∀ idv (s : InspState) envs, s.inspectionData = none →
       List.Chain' rankLE (serverStatuses idv envs) →
       List.Chain' rankLE (observedStatuses idv s envs)) := by
  constructor
  · exact fetchInspection_data
  · intro idv s envs hnone h
    have haux := observed_chain_aux idv envs s
      (by rw [hnone]; simpa [dataStatuses] using h)
    rw [hnone] at haux
    simpa [dataStatuses] using haux

/-- Witness for C2 (amended): a monotone server sequence (processing, then
completed) yields a monotone observed sequence, and a successful refresh
stores the returned inspection. -/
theorem fetchInspection_no_client_regression_witness :
    (fetchInspection (some "abc") false inspS0
        (feFix ProcessingStatus.completed)).inspectionData =
      some (inspFix ProcessingStatus.completed) ∧
    List.Chain' rankLE
      (observedStatuses (some "abc") inspS0
        [feFix ProcessingStatus.processing, feFix ProcessingStatus.completed]) := by
  constructor
  · have h := fetchInspection_no_client_regression.1 (some "abc") false inspS0
      (feFix ProcessingStatus.completed)
    rw [h]
    decide
  · apply fetchInspection_no_client_regression.2 (some "abc") inspS0
      [feFix ProcessingStatus.processing, feFix ProcessingStatus.completed] rfl
    have hsrv : serverStatuses (some "abc")
        [feFix ProcessingStatus.processing, feFix ProcessingStatus.completed] =
        [ProcessingStatus.processing, ProcessingStatus.completed] := by
      decide
    rw [hsrv]
    exact List.chain'_cons.mpr ⟨by decide, List.chain'_singleton _⟩

end HSE
